import Mathlib

/-!
Shallow embedding of the `fautil` service-lifecycle subsystem and assorted
utilities, together with proofs about the embedded code.

The definitions below are translated from the Python sources:

* `src/fautil/service/lifecycle_manager.py`  (lifecycle events, listeners)
* `src/fautil/service/shutdown_manager.py`   (phased graceful shutdown)
* `src/fautil/service/api_service.py`        (service start/stop orchestration)
* `src/fautil/utils/id_generator.py`         (Snowflake id generator)
* `src/fautil/cache/local.py`                (LRU cache)

Python integers are modelled by `Int` (or `Nat` where the source value is
manifestly a count), Python exceptions by `Except` values, callbacks by their
abstracted outcomes, and the wall clock by an explicit stream of readings.
-/

namespace Fautil

/-- Lifecycle event types, from `LifecycleEventType` in `lifecycle_manager.py`. -/
inductive LifecycleEventType where
  | pre_startup
  | post_startup
  | pre_shutdown
  | post_shutdown
  | pre_http_start
  | post_http_start
  | pre_http_stop
  | post_http_stop
  | pre_services_stop
  | post_services_stop
  | pre_cleanup
  | post_cleanup
  | pre_injector_creation
  | post_injector_creation
deriving DecidableEq, Fintype

/-- Component types, from `ComponentType` in `lifecycle_manager.py`. -/
inductive ComponentType where
  | api
  | database
  | cache
  | queue
  | scheduler
  | storage
  | core
  | other
deriving DecidableEq, Fintype

/-- The `_component_shutdown_priority` dictionary built in
`LifecycleManager.__init__` (lifecycle_manager.py lines 130-139).  The
dictionary has an entry for every component type, so it is modelled as a total
function. -/
def component_shutdown_priority : ComponentType → Int
  | .api => 100
  | .scheduler => 80
  | .queue => 60
  | .cache => 40
  | .storage => 20
  | .database => 10
  | .core => 0
  | .other => 50

/-- The startup-event tuple tested in `register_event_listener`
(lifecycle_manager.py lines 164-169) when choosing a default priority. -/
def startup_priority_events : List LifecycleEventType :=
  [.pre_startup, .post_startup, .pre_http_start, .post_http_start]

/-- Default listener priority computed by `register_event_listener` when the
caller passes `priority=None` (lifecycle_manager.py lines 162-173). -/
def default_priority (event_type : LifecycleEventType) (component_type : ComponentType) : Int :=
  if event_type ∈ startup_priority_events then
    100 - component_shutdown_priority component_type
  else
    component_shutdown_priority component_type

instance (ε α : Type) [DecidableEq ε] [DecidableEq α] : DecidableEq (Except ε α) := fun
  | .ok a, .ok b =>
    if h : a = b then .isTrue (by rw [h]) else .isFalse (by intro hab; cases hab; exact h rfl)
  | .ok _, .error _ => .isFalse (by intro hab; cases hab)
  | .error _, .ok _ => .isFalse (by intro hab; cases hab)
  | .error a, .error b =>
    if h : a = b then .isTrue (by rw [h]) else .isFalse (by intro hab; cases hab; exact h rfl)

/-- A lifecycle event listener, from `LifecycleEventListener` in
`lifecycle_manager.py`.  The Python object stores the callback and metadata
derived from it; here the callback is abstracted by its `name` (used for
sorting) and its `outcome` (normal return or a raised exception, identified by
a numeric code). -/
structure LifecycleEventListener where
  name : List Char
  component_type : ComponentType
  priority : Int
  outcome : Except Nat Unit
deriving DecidableEq

/-- The comparison performed by Python's stable `list.sort` with
`key=lambda x: (-x.priority, x.name)` (lifecycle_manager.py lines 355 and
358): lexicographic order on the key tuple. -/
def listener_sort_le (a b : LifecycleEventListener) : Bool :=
  decide (b.priority < a.priority ∨ (a.priority = b.priority ∧ a.name ≤ b.name))

/-- The event tuple tested in `_sort_listeners` (lifecycle_manager.py lines
347-354); both branches of that `if` sort with the same key. -/
def startup_sort_events : List LifecycleEventType :=
  [.pre_startup, .post_startup, .pre_http_start, .post_http_start,
   .pre_injector_creation, .post_injector_creation]

/-- `LifecycleManager._sort_listeners` (lifecycle_manager.py lines 336-358):
the listener list of one event type is sorted in place; the startup and
shutdown branches use the identical sort key.  Python's sort is stable, so it
is modelled by the stable `List.mergeSort`. -/
def sort_listeners (event_type : LifecycleEventType)
    (listeners : List LifecycleEventListener) : List LifecycleEventListener :=
  if event_type ∈ startup_sort_events then
    listeners.mergeSort listener_sort_le
  else
    listeners.mergeSort listener_sort_le

/-- `LifecycleManager.register_event_listener` (lifecycle_manager.py lines
141-192): fill in the default component type and priority, append the new
listener to the registry entry for `event_type`, and re-sort that entry. -/
def register_event_listener (event_type : LifecycleEventType)
    (callback_name : List Char) (component_type : Option ComponentType)
    (priority : Option Int) (outcome : Except Nat Unit)
    (registry : LifecycleEventType → List LifecycleEventListener) :
    LifecycleEventType → List LifecycleEventListener :=
  let ct := component_type.getD .other
  let pr := priority.getD (default_priority event_type ct)
  let listener : LifecycleEventListener := ⟨callback_name, ct, pr, outcome⟩
  fun e =>
    if e = event_type then sort_listeners event_type (registry event_type ++ [listener])
    else registry e

/-- The startup-event tuple tested inside the `except` handler of
`trigger_event` (lifecycle_manager.py lines 314-319). -/
def startup_raise_events : List LifecycleEventType :=
  [.pre_startup, .post_startup, .pre_http_start, .post_http_start]

/-- Loop body of `LifecycleManager.trigger_event` (lifecycle_manager.py lines
294-320): call each listener in list order; on an exception, re-raise if the
event is a startup event, otherwise log and continue.  Returns the final
outcome together with the names of the listeners that were invoked. -/
def trigger_event_go (event_type : LifecycleEventType) :
    List LifecycleEventListener → List (List Char) → Except Nat Unit × List (List Char)
  | [], invoked => (.ok (), invoked)
  | l :: rest, invoked =>
    match l.outcome with
    | .ok () => trigger_event_go event_type rest (invoked ++ [l.name])
    | .error exc =>
      if event_type ∈ startup_raise_events then (.error exc, invoked ++ [l.name])
      else trigger_event_go event_type rest (invoked ++ [l.name])

/-- `LifecycleManager.trigger_event` (lifecycle_manager.py lines 273-320),
applied to the (already sorted) listener list of the event. -/
def trigger_event (event_type : LifecycleEventType)
    (listeners : List LifecycleEventListener) : Except Nat Unit × List (List Char) :=
  trigger_event_go event_type listeners []

/-- The ordering relation "runs no later than" on listeners that
`_sort_listeners` establishes: strictly higher priority first, ties broken by
ascending name. -/
def listener_order (a b : LifecycleEventListener) : Prop :=
  b.priority < a.priority ∨ (a.priority = b.priority ∧ a.name ≤ b.name)

/-! ## Shutdown manager (`shutdown_manager.py`) -/

/-- Shutdown phases, from `ShutdownPhase` in `shutdown_manager.py` lines 21-31. -/
inductive ShutdownPhase where
  | not_started
  | starting
  | api_stopping
  | services_stopping
  | cleanup
  | completed
  | failed
  | cancelled
deriving DecidableEq, Fintype

/-- Position of a phase in the progression of a shutdown run; used to state
that the `_phase` field only ever moves forward.  `failed` and `cancelled` are
terminal states that a run can only move into, never out of. -/
def phase_order : ShutdownPhase → Nat
  | .not_started => 0
  | .starting => 1
  | .api_stopping => 2
  | .services_stopping => 3
  | .cleanup => 4
  | .completed => 5
  | .failed => 6
  | .cancelled => 7

/-- Configuration state of `ShutdownManager` (`__init__`, shutdown_manager.py
lines 82-93).  The `_phase_timeouts` dictionary is modelled as a partial map
from phases to seconds (the source values are whole seconds). -/
structure ShutdownConfig where
  timeout : Int
  force_exit : Bool
  exit_code : Int
  wait_api_requests : Bool
  api_request_timeout : Int
  phase_timeouts : ShutdownPhase → Option Int

/-- The defaults assigned in `ShutdownManager.__init__`: overall timeout 60 s,
no forced exit, exit code 0, wait for API requests with a 30 s timeout, and
`_phase_timeouts = {API_STOPPING: 30, SERVICES_STOPPING: 20, CLEANUP: 10}`. -/
def default_shutdown_config : ShutdownConfig :=
  ⟨60, false, 0, true, 30, fun p =>
    match p with
    | .api_stopping => some 30
    | .services_stopping => some 20
    | .cleanup => some 10
    | _ => none⟩

/-- `ShutdownManager.configure` (shutdown_manager.py lines 142-178): each
argument that is not `None` overwrites the stored value; a supplied
`phase_timeouts` dictionary is merged into the stored one (`dict.update`:
supplied entries win, other stored entries survive). -/
def configure (c : ShutdownConfig) (timeout : Option Int) (force_exit : Option Bool)
    (exit_code : Option Int) (wait_api_requests : Option Bool)
    (api_request_timeout : Option Int)
    (phase_timeouts : Option (ShutdownPhase → Option Int)) : ShutdownConfig :=
  let c := match timeout with | some v => { c with timeout := v } | none => c
  let c := match force_exit with | some v => { c with force_exit := v } | none => c
  let c := match exit_code with | some v => { c with exit_code := v } | none => c
  let c := match wait_api_requests with
    | some v => { c with wait_api_requests := v } | none => c
  let c := match api_request_timeout with
    | some v => { c with api_request_timeout := v } | none => c
  match phase_timeouts with
  | some pts =>
    { c with phase_timeouts := fun p =>
        match pts p with
        | some v => some v
        | none => c.phase_timeouts p }
  | none => c

/-- The timeout argument `_execute_phase` actually passes to the per-phase
stop routine (shutdown_manager.py lines 348-356): `_stop_api_server
(timeout=10.0)`, `_stop_services(timeout=10.0)`, `_cleanup_resources
(timeout=5.0)`; other phases have no stop routine.  These literals do not
depend on the manager's configuration: `_execute_phase` never reads
`self._phase_timeouts`.  (Moreover only `_stop_api_server` enforces its
argument, via `asyncio.wait_for`; `_stop_services` and `_cleanup_resources`
ignore theirs.) -/
def execute_phase_timeout_arg : ShutdownPhase → Option Int
  | .api_stopping => some 10
  | .services_stopping => some 10
  | .cleanup => some 5
  | _ => none

/-- Outcome of one `await self._execute_phase(...)` call as observed by
`_graceful_shutdown`: normal return, a propagating `Exception` (numeric
code), or a propagating `asyncio.CancelledError`. -/
inductive StepOutcome where
  | ok
  | exc (code : Nat)
  | cancelled
deriving DecidableEq

/-- A non-ok outcome, as matched by the two `except` arms of
`_graceful_shutdown` (shutdown_manager.py lines 299-317). -/
inductive PhaseFailure where
  | exc (code : Nat)
  | cancelled
deriving DecidableEq

/-- The phases executed by `_graceful_shutdown`, in source order
(shutdown_manager.py lines 277-284). -/
def shutdown_phases_list : List ShutdownPhase :=
  [.api_stopping, .services_stopping, .cleanup]

/-- Run the listed phases in order, as the `try` block of
`_graceful_shutdown` does.  Each `_execute_phase` call first assigns
`self._phase = phase`; the returned list records those assignments in order,
and the second component is the first propagating failure (if any), which
aborts the remaining phases. -/
def exec_phases (env : ShutdownPhase → StepOutcome) :
    List ShutdownPhase → List ShutdownPhase × Option PhaseFailure
  | [] => ([], none)
  | p :: rest =>
    match env p with
    | .ok =>
      let (t, r) := exec_phases env rest
      (p :: t, r)
    | .exc code => ([p], some (.exc code))
    | .cancelled => ([p], some .cancelled)

/-- `ShutdownManager._graceful_shutdown` (shutdown_manager.py lines 252-317),
with each phase body abstracted by its outcome `env`.  Returns the sequence
of `_phase` assignments and whether `_shutdown_complete` was set (which
happens only at the very end of `_cleanup_resources`, lines 511-512).  A
reentrant call (`_is_shutting_down` already true) returns at once without
touching the phase.  On success the phase ends at `completed`; a propagating
exception sets `failed` and a cancellation sets `cancelled`. -/
def graceful_shutdown (is_shutting_down : Bool)
    (env : ShutdownPhase → StepOutcome) : List ShutdownPhase × Bool :=
  if is_shutting_down then ([], false)
  else
    let (t, r) := exec_phases env shutdown_phases_list
    match r with
    | none => (.starting :: t ++ [.completed], true)
    | some (.exc _) => (.starting :: t ++ [.failed], false)
    | some .cancelled => (.starting :: t ++ [.cancelled], false)

/-- Outcome of `await self.http_server_manager.stop()` inside
`_stop_api_server` (shutdown_manager.py lines 379-392), as distinguished by
its `except` arms: normal return, `asyncio.TimeoutError` from the
`asyncio.wait_for(..., timeout)`, `asyncio.CancelledError`, or any other
exception. -/
inductive HttpStopOutcome where
  | ok
  | timeout
  | cancelled
  | exc (code : Nat)
deriving DecidableEq

/-- `ShutdownManager._stop_api_server` (shutdown_manager.py lines 363-395):
when no HTTP server manager is configured the phase is skipped; otherwise
every failure of the server stop is caught (timeout and generic exceptions
are logged, cancellation sets `should_exit`), so the routine always returns
normally to `_execute_phase`. -/
def stop_api_server (has_http_server_manager : Bool)
    (out : HttpStopOutcome) : StepOutcome :=
  if !has_http_server_manager then .ok
  else
    match out with
    | .ok => .ok
    | .timeout => .ok
    | .cancelled => .ok
    | .exc _ => .ok

/-- Phase environment of a shutdown run in which the API-stopping phase runs
`_stop_api_server` with HTTP-stop outcome `out`, and the services/cleanup
phases finish with the given outcomes (their bodies, shutdown_manager.py
lines 455-515, only trigger non-startup lifecycle events — whose listener
errors `trigger_event` swallows — and sleep, so absent a task cancellation
they return normally). -/
def env_with_http (out : HttpStopOutcome) (services cleanup : StepOutcome) :
    ShutdownPhase → StepOutcome
  | .api_stopping => stop_api_server true out
  | .services_stopping => services
  | .cleanup => cleanup
  | _ => .ok

/-! ## API service (`api_service.py`) -/

/-- The externally visible operations `APIService.start` performs, in the
order the source performs them.  `discover_components` stands for
`APIService._discover_components` (api_service.py lines 521-539); it is
declared here so that its absence from a start trace can be stated. -/
inductive StartStep where
  | create_injector
  | get_settings
  | register_views
  | trigger (e : LifecycleEventType)
  | configure_http_server
  | register_signal_handlers
  | http_server_start
  | discover_components
deriving DecidableEq

/-- Outcomes of the awaited steps inside the `try` block of
`APIService.start` (api_service.py lines 288-344): the four lifecycle
triggers and the HTTP server start, each either returning or raising. -/
structure StartEnv where
  pre_startup_outcome : Except Nat Unit
  pre_http_start_outcome : Except Nat Unit
  http_start_outcome : Except Nat Unit
  post_http_start_outcome : Except Nat Unit
  post_startup_outcome : Except Nat Unit
deriving DecidableEq

/-- `APIService.start` (api_service.py lines 220-350) on a freshly
constructed service (`_injector` and `_app` both `None`): create the
injector, create the app (which reads the settings through `ConfigManager.
get_settings`, line 432), register queued views, then inside `try`: trigger
`PRE_STARTUP`, configure the HTTP server manager, register the shutdown
manager's signal handlers, trigger `PRE_HTTP_START`, set `_started`, start
the HTTP server, and trigger `POST_HTTP_START` and `POST_STARTUP`.  Any
exception resets `_started` and re-raises.  Returns the step trace, the
final `_started` flag, and the call's result.  (The optional blocking wait on
the serve task, lines 334-344, is outside this model.) -/
def api_service_start (started : Bool) (env : StartEnv) :
    List StartStep × Bool × Except Nat Unit :=
  if started then ([], true, .ok ())
  else
    let steps0 : List StartStep := [.create_injector, .get_settings, .register_views]
    match env.pre_startup_outcome with
    | .error c => (steps0 ++ [.trigger .pre_startup], false, .error c)
    | .ok () =>
      let steps1 := steps0 ++
        [.trigger .pre_startup, .configure_http_server, .register_signal_handlers]
      match env.pre_http_start_outcome with
      | .error c => (steps1 ++ [.trigger .pre_http_start], false, .error c)
      | .ok () =>
        let steps2 := steps1 ++ [.trigger .pre_http_start]
        match env.http_start_outcome with
        | .error c => (steps2 ++ [.http_server_start], false, .error c)
        | .ok () =>
          let steps3 := steps2 ++ [.http_server_start]
          match env.post_http_start_outcome with
          | .error c => (steps3 ++ [.trigger .post_http_start], false, .error c)
          | .ok () =>
            let steps4 := steps3 ++ [.trigger .post_http_start]
            match env.post_startup_outcome with
            | .error c => (steps4 ++ [.trigger .post_startup], false, .error c)
            | .ok () => (steps4 ++ [.trigger .post_startup], true, .ok ())

/-- A start environment in which every awaited step succeeds. -/
def all_ok_start_env : StartEnv := ⟨.ok (), .ok (), .ok (), .ok (), .ok ()⟩

/-- The trace of a successful first `APIService.start` run. -/
def successful_start_trace : List StartStep :=
  [.create_injector, .get_settings, .register_views, .trigger .pre_startup,
   .configure_http_server, .register_signal_handlers, .trigger .pre_http_start,
   .http_server_start, .trigger .post_http_start, .trigger .post_startup]

/-- The fallback actions `APIService.stop` can take, for the action trace. -/
inductive StopAction where
  | use_shutdown_manager
  | direct_http_stop
  | unregister_atexit
deriving DecidableEq

/-- Outcomes of the fallible blocks inside `APIService.stop`: the
shutdown-manager block (get the manager, trigger shutdown, wait for it,
api_service.py lines 383-397) and the direct HTTP-server stop fallback
(lines 402-406). -/
structure StopEnv where
  shutdown_flow_outcome : Except Nat Unit
  direct_http_stop_outcome : Except Nat Unit
deriving DecidableEq

/-- `APIService.stop` (api_service.py lines 352-419).  When the service is
not started or already stopping it returns at once, performing no action and
leaving both flags unchanged.  Otherwise it sets `_stopping`, attempts the
shutdown-manager flow (falling back to stopping the HTTP server directly if
that block raises; a failure of the fallback is also caught), unregisters the
atexit handler (its own failure swallowed), and — in the `finally` block,
lines 415-419 — always resets `_started` and `_stopping` to `False`.
Returns the final `(_started, _stopping)` flags and the action trace. -/
def api_service_stop (started stopping : Bool) (has_injector : Bool)
    (env : StopEnv) : (Bool × Bool) × List StopAction :=
  if !started || stopping then ((started, stopping), [])
  else
    let actions :=
      if has_injector then
        (match env.shutdown_flow_outcome with
         | .ok () => [StopAction.use_shutdown_manager]
         | .error _ =>
           match env.direct_http_stop_outcome with
           | .ok () => [StopAction.use_shutdown_manager, .direct_http_stop]
           | .error _ => [StopAction.use_shutdown_manager, .direct_http_stop]) ++
        [StopAction.unregister_atexit]
      else []
    ((false, false), actions)

/-! ## Local LRU cache (`cache/local.py`)

The `OrderedDict` is modelled as an association list in insertion order
(oldest entry first); `popitem(last=False)` drops the head,
`self._cache[key] = (value, time.time())` appends at the tail.  Keys stay
unique because every insertion first pops an existing entry.  Each operation
that reads `time.time()` takes the present instant `now` explicitly. -/

/-- Cache state of `LRUCache.__init__` (local.py lines 30-40): the bounds and
the ordered entries `key ↦ (value, timestamp)`. -/
structure LRUCache (K V : Type) where
  maxsize : Int
  ttl : Int
  cache : List (K × V × Int)

/-- A fresh cache, from `LRUCache.__init__`. -/
def mkLRUCache (K V : Type) (maxsize ttl : Int) : LRUCache K V := ⟨maxsize, ttl, []⟩

/-- Python `key in self._cache` on the underlying dict. -/
def cache_has_key {K V : Type} [DecidableEq K] (c : List (K × V × Int)) (k : K) : Bool :=
  c.any (fun e => decide (e.1 = k))

/-- Python `self._cache.pop(key)`'s effect on the entry list (keys are
unique, so removing the first match removes the entry). -/
def cache_pop {K V : Type} [DecidableEq K] (c : List (K × V × Int)) (k : K) :
    List (K × V × Int) :=
  c.eraseP (fun e => decide (e.1 = k))

/-- Python `self._cache[key]` lookup. -/
def cache_find {K V : Type} [DecidableEq K] (c : List (K × V × Int)) (k : K) :
    Option (V × Int) :=
  (c.find? (fun e => decide (e.1 = k))).map (fun e => e.2)

/-- `LRUCache.__contains__` (local.py lines 42-61): a missing key is `False`;
with a positive `ttl` an expired entry is popped and reported missing;
otherwise `True`. -/
def LRUCache.contains {K V : Type} [DecidableEq K] (now : Int) (k : K)
    (c : LRUCache K V) : Bool × LRUCache K V :=
  match cache_find c.cache k with
  | none => (false, c)
  | some (_, timestamp) =>
    if 0 < c.ttl then
      if c.ttl < now - timestamp then (false, { c with cache := cache_pop c.cache k })
      else (true, c)
    else (true, c)

/-- `LRUCache.get` (local.py lines 63-80): uses `__contains__` (which may pop
an expired entry), then moves the hit entry to the tail with a refreshed
timestamp.  A miss returns the default (modelled `none`). -/
def LRUCache.get {K V : Type} [DecidableEq K] (now : Int) (k : K)
    (c : LRUCache K V) : Option V × LRUCache K V :=
  let bc := LRUCache.contains now k c
  if !bc.1 then (none, bc.2)
  else
    match cache_find bc.2.cache k with
    | none => (none, bc.2)
    | some (v, _) =>
      (some v, { bc.2 with cache := cache_pop bc.2.cache k ++ [(k, v, now)] })

/-- `LRUCache.set` (local.py lines 82-98): pop an existing entry for the key,
evict the oldest entry (`popitem(last=False)`) if the cache is still full,
then append the new entry.  `popitem` on an empty dict raises `KeyError`,
modelled as the `error` case (reachable only when `maxsize < 1`). -/
def LRUCache.set {K V : Type} [DecidableEq K] (now : Int) (k : K) (v : V)
    (c : LRUCache K V) : Except Unit (LRUCache K V) :=
  let c1 := if cache_has_key c.cache k then cache_pop c.cache k else c.cache
  if c.maxsize ≤ (c1.length : Int) then
    match c1 with
    | [] => .error ()
    | _ :: rest => .ok { c with cache := rest ++ [(k, v, now)] }
  else .ok { c with cache := c1 ++ [(k, v, now)] }

/-- `LRUCache.remove` (local.py lines 100-107). -/
def LRUCache.remove {K V : Type} [DecidableEq K] (k : K) (c : LRUCache K V) :
    LRUCache K V :=
  if cache_has_key c.cache k then { c with cache := cache_pop c.cache k } else c

/-- `LRUCache.clear` (local.py lines 109-111). -/
def LRUCache.clear {K V : Type} (c : LRUCache K V) : LRUCache K V :=
  { c with cache := [] }

/-- `LRUCache.prune` (local.py lines 121-138): with a non-positive `ttl`
nothing is pruned; otherwise every expired entry is popped and their number
returned. -/
def LRUCache.prune {K V : Type} [DecidableEq K] (now : Int) (c : LRUCache K V) :
    Nat × LRUCache K V :=
  if c.ttl ≤ 0 then (0, c)
  else
    let expired := c.cache.filter (fun e => decide (c.ttl < now - e.2.2))
    let kept := c.cache.filter (fun e => !decide (c.ttl < now - e.2.2))
    (expired.length, { c with cache := kept })

/-- One public cache operation, with the instant at which it runs. -/
inductive CacheOp (K V : Type) where
  | set (now : Int) (k : K) (v : V)
  | get (now : Int) (k : K)
  | remove (k : K)
  | clear
  | prune (now : Int)
  | contains (now : Int) (k : K)
deriving DecidableEq

/-- Apply one operation to the cache; only `set` can fail (the `popitem` on
an empty full cache). -/
def applyCacheOp {K V : Type} [DecidableEq K] (c : LRUCache K V) :
    CacheOp K V → Except Unit (LRUCache K V)
  | .set now k v => LRUCache.set now k v c
  | .get now k => .ok (LRUCache.get now k c).2
  | .remove k => .ok (LRUCache.remove k c)
  | .clear => .ok (LRUCache.clear c)
  | .prune now => .ok (LRUCache.prune now c).2
  | .contains now k => .ok (LRUCache.contains now k c).2

/-- Run a sequence of cache operations. -/
def runCacheOps {K V : Type} [DecidableEq K] (c : LRUCache K V) :
    List (CacheOp K V) → Except Unit (LRUCache K V)
  | [] => .ok c
  | op :: rest =>
    match applyCacheOp c op with
    | .ok c' => runCacheOps c' rest
    | .error e => .error e

/-! ## Snowflake id generator (`utils/id_generator.py`)

Python's `time.time() * 1000` readings are modelled as a stream
`clock : Nat → Int` of millisecond timestamps consumed one reading per
`_get_timestamp()` call, with a cursor saying how many readings have been
consumed.  The spin-wait `_next_millis` polls the stream; it is given an
explicit polling budget (`fuel`), and a call that cannot finish within any
budget models the Python loop spinning forever. -/

/-- Bit-length constants from `SnowflakeGenerator.__init__`
(id_generator.py lines 43-45). -/
def worker_id_bits : Int := 5

/-- Data-center id bit length. -/
def datacenter_id_bits : Int := 5

/-- Sequence bit length. -/
def sequence_bits : Int := 12

/-- `self.max_worker_id = -1 ^ (-1 << self.worker_id_bits)` (line 48). -/
def max_worker_id : Int := Int.xor (-1) ((-1) <<< worker_id_bits)

/-- `self.max_datacenter_id = -1 ^ (-1 << self.datacenter_id_bits)` (line 49). -/
def max_datacenter_id : Int := Int.xor (-1) ((-1) <<< datacenter_id_bits)

/-- `self.max_sequence = -1 ^ (-1 << self.sequence_bits)` (line 50). -/
def max_sequence : Int := Int.xor (-1) ((-1) <<< sequence_bits)

/-- `self.worker_id_shift = self.sequence_bits` (line 53). -/
def worker_id_shift : Int := sequence_bits

/-- `self.datacenter_id_shift = self.sequence_bits + self.worker_id_bits`
(line 54). -/
def datacenter_id_shift : Int := sequence_bits + worker_id_bits

/-- `self.timestamp_shift = self.sequence_bits + self.worker_id_bits +
self.datacenter_id_bits` (lines 55-57). -/
def timestamp_shift : Int := sequence_bits + worker_id_bits + datacenter_id_bits

/-- Mutable state of a `SnowflakeGenerator`. -/
structure Snowflake where
  worker_id : Int
  datacenter_id : Int
  sequence : Int
  last_timestamp : Int
  twepoch : Int
deriving DecidableEq

/-- `SnowflakeGenerator.__init__` (id_generator.py lines 26-71): validate the
worker and data-center ids (`ValueError` otherwise; the starting `sequence`
is not validated) and start with `last_timestamp = -1`. -/
def mkSnowflake (worker_id datacenter_id sequence twepoch : Int) :
    Except Unit Snowflake :=
  if max_worker_id < worker_id ∨ worker_id < 0 then .error ()
  else if max_datacenter_id < datacenter_id ∨ datacenter_id < 0 then .error ()
  else .ok ⟨worker_id, datacenter_id, sequence, -1, twepoch⟩

/-- `SnowflakeGenerator._get_timestamp` (lines 88-95): read the next clock
value and advance the cursor. -/
def get_timestamp (clock : Nat → Int) (cur : Nat) : Int × Nat :=
  (clock cur, cur + 1)

/-- `SnowflakeGenerator._next_millis` (lines 73-86): poll the clock until a
reading strictly above `last_timestamp` appears, within the given polling
budget (`none` = the Python loop is still spinning after `fuel` reads). -/
def next_millis (clock : Nat → Int) : Nat → Nat → Int → Option (Int × Nat)
  | 0, _, _ => none
  | fuel + 1, cur, last =>
    let tc := get_timestamp clock cur
    if tc.1 ≤ last then next_millis clock fuel tc.2 last else some (tc.1, tc.2)

/-- The id assembly at the end of `next_id` (lines 126-131): Python's `|` on
`int` is `Int.lor`, `<<` is `<<<`. -/
def snowflake_id (g : Snowflake) (timestamp sequence : Int) : Int :=
  Int.lor
    (Int.lor
      (Int.lor ((timestamp - g.twepoch) <<< timestamp_shift)
        (g.datacenter_id <<< datacenter_id_shift))
      (g.worker_id <<< worker_id_shift))
    sequence

/-- `SnowflakeGenerator.next_id` (id_generator.py lines 97-131): read the
clock; a reading behind `last_timestamp` raises `RuntimeError` (the `error`
case); in the same millisecond the sequence is incremented modulo 4096,
waiting for the next millisecond when it wraps to 0; in a fresh millisecond
the sequence resets to 0.  Returns `none` when the `_next_millis` wait does
not finish within the polling budget. -/
def next_id (fuel : Nat) (clock : Nat → Int) (cur : Nat) (g : Snowflake) :
    Option (Except Unit (Int × Snowflake × Nat)) :=
  let tc := get_timestamp clock cur
  if tc.1 < g.last_timestamp then some (.error ())
  else if tc.1 = g.last_timestamp then
    let seq := Int.land (g.sequence + 1) max_sequence
    if seq = 0 then
      match next_millis clock fuel tc.2 g.last_timestamp with
      | none => none
      | some (ts, cur') =>
        some (.ok (snowflake_id g ts seq, { g with sequence := seq, last_timestamp := ts }, cur'))
    else
      some (.ok (snowflake_id g tc.1 seq,
        { g with sequence := seq, last_timestamp := tc.1 }, tc.2))
  else
    some (.ok (snowflake_id g tc.1 0,
      { g with sequence := 0, last_timestamp := tc.1 }, tc.2))

/-- Run `n` successive `next_id` calls, each with polling budget `fuel`,
returning the final generator state and cursor (`none` if a call errors or
spins past its budget). -/
def next_id_iter : Nat → Nat → (Nat → Int) → Nat → Snowflake → Option (Snowflake × Nat)
  | 0, _, _, cur, g => some (g, cur)
  | n + 1, fuel, clock, cur, g =>
    match next_id fuel clock cur g with
    | some (.ok (_, g', cur')) => next_id_iter n fuel clock cur' g'
    | _ => none

/-- The well-formedness that `__init__`'s validation and the `next_id` update
rules maintain: bounded ids and an in-range sequence. -/
def snowflake_wf (g : Snowflake) : Prop :=
  0 ≤ g.sequence ∧ g.sequence ≤ 4095 ∧ 0 ≤ g.datacenter_id ∧
  g.datacenter_id ≤ 31 ∧ 0 ≤ g.worker_id ∧ g.worker_id ≤ 31

/-- A clock frozen at 7 ms, used to exhibit the spinning wait. -/
def frozen_clock : Nat → Int := fun _ => 7

/-- A strictly advancing clock (1 ms per reading), for concrete runs. -/
def count_clock : Nat → Int := fun n => n

/-- A clock stuck behind an already stored timestamp, for the
clock-moved-backwards case. -/
def behind_clock : Nat → Int := fun _ => -5

end Fautil

namespace Fautil

/-! ### Helper lemmas -/

theorem listener_sort_le_iff (a b : LifecycleEventListener) :
    listener_sort_le a b = true ↔ listener_order a b := by
  simp [listener_sort_le, listener_order]

theorem listener_sort_le_trans (a b c : LifecycleEventListener)
    (hab : listener_sort_le a b) (hbc : listener_sort_le b c) :
    listener_sort_le a c := by
  rw [listener_sort_le_iff] at *
  rcases hab with h₁ | ⟨h₁, h₁'⟩ <;> rcases hbc with h₂ | ⟨h₂, h₂'⟩
  · exact Or.inl (h₂.trans h₁)
  · exact Or.inl (h₂ ▸ h₁)
  · exact Or.inl (h₁ ▸ h₂)
  · exact Or.inr ⟨h₁.trans h₂, le_trans h₁' h₂'⟩

theorem listener_sort_le_total (a b : LifecycleEventListener) :
    listener_sort_le a b || listener_sort_le b a := by
  simp only [Bool.or_eq_true, listener_sort_le_iff, listener_order]
  rcases lt_trichotomy a.priority b.priority with h | h | h
  · exact Or.inr (Or.inl h)
  · rcases le_total a.name b.name with h' | h'
    · exact Or.inl (Or.inr ⟨h, h'⟩)
    · exact Or.inr (Or.inr ⟨h.symm, h'⟩)
  · exact Or.inl (Or.inl h)

theorem sort_listeners_eq (e : LifecycleEventType) (l : List LifecycleEventListener) :
    sort_listeners e l = l.mergeSort listener_sort_le := by
  unfold sort_listeners
  split <;> rfl

theorem sort_listeners_pairwise (e : LifecycleEventType)
    (l : List LifecycleEventListener) :
    (sort_listeners e l).Pairwise listener_order := by
  rw [sort_listeners_eq]
  have h := @List.sorted_mergeSort _ listener_sort_le
    listener_sort_le_trans listener_sort_le_total l
  exact h.imp (fun hab => (listener_sort_le_iff _ _).mp hab)

theorem sort_listeners_perm (e : LifecycleEventType)
    (l : List LifecycleEventListener) : List.Perm (sort_listeners e l) l := by
  rw [sort_listeners_eq]
  exact List.mergeSort_perm l _

theorem trigger_event_go_all_ok (e : LifecycleEventType)
    (l : List LifecycleEventListener) (h : ∀ x ∈ l, x.outcome = .ok ()) :
    ∀ acc, trigger_event_go e l acc = (.ok (), acc ++ l.map (fun x => x.name)) := by
  induction l with
  | nil => intro acc; simp [trigger_event_go]
  | cons a rest ih =>
    intro acc
    have ha : a.outcome = .ok () := h a (List.mem_cons_self a rest)
    have hrest : ∀ x ∈ rest, x.outcome = .ok () := fun x hx => h x (List.mem_cons_of_mem a hx)
    simp only [trigger_event_go, ha, ih hrest, List.map_cons]
    simp

theorem trigger_event_go_append_ok (e : LifecycleEventType)
    (pre : List LifecycleEventListener) (h : ∀ x ∈ pre, x.outcome = .ok ()) :
    ∀ (rest : List LifecycleEventListener) (acc : List (List Char)),
      trigger_event_go e (pre ++ rest) acc =
        trigger_event_go e rest (acc ++ pre.map (fun x => x.name)) := by
  induction pre with
  | nil => intro rest acc; simp
  | cons a tl ih =>
    intro rest acc
    have ha : a.outcome = .ok () := h a (List.mem_cons_self a tl)
    have htl : ∀ x ∈ tl, x.outcome = .ok () := fun x hx => h x (List.mem_cons_of_mem a hx)
    simp only [List.cons_append, trigger_event_go, ha, List.append_eq]
    rw [ih htl rest (acc ++ [a.name])]
    simp

theorem trigger_event_go_no_raise (e : LifecycleEventType)
    (he : e ∉ startup_raise_events) :
    ∀ (l : List LifecycleEventListener) (acc : List (List Char)),
      trigger_event_go e l acc = (.ok (), acc ++ l.map (fun x => x.name)) := by
  intro l
  induction l with
  | nil => intro acc; simp [trigger_event_go]
  | cons a tl ih =>
    intro acc
    match ha : a.outcome with
    | .ok () =>
      simp only [trigger_event_go, ha, ih, List.map_cons]
      simp
    | .error exc =>
      simp only [trigger_event_go, ha, if_neg he, ih, List.map_cons]
      simp

theorem nat_ldiff_zero (m : Nat) : Nat.ldiff m 0 = m :=
  Nat.eq_of_testBit_eq fun i => by simp [Nat.testBit_ldiff]

theorem int_lor_zero (a : Int) : Int.lor a 0 = a := by
  cases a with
  | ofNat m =>
    show Int.lor (Int.ofNat m) (Int.ofNat 0) = Int.ofNat m
    simp [Int.lor]
  | negSucc m =>
    show Int.lor (Int.negSucc m) (Int.ofNat 0) = Int.negSucc m
    simp [Int.lor, nat_ldiff_zero]

theorem int_lor_mul_pow :
    ∀ (k : Nat) (a : Int) (b : Nat), b < 2 ^ k →
      Int.lor (a * 2 ^ k) (b : Int) = a * 2 ^ k + b := by
  intro k
  induction k with
  | zero =>
    intro a b hb
    have hb0 : b = 0 := by omega
    subst hb0
    simp [int_lor_zero]
  | succ k ih =>
    intro a b hb
    have hb2 : b.div2 < 2 ^ k := by
      rw [Nat.div2_val]
      have hpow : 2 ^ (k + 1) = 2 ^ k * 2 := by ring
      omega
    have hbd : (b : Int) = Int.bit b.bodd (b.div2 : Int) := by
      conv_lhs => rw [← Nat.bit_decomp b]
      rw [Int.bit_coe_nat]
    have ha : a * 2 ^ (k + 1) = Int.bit false (a * 2 ^ k) := by
      simp only [Int.bit_val, Bool.cond_false]
      ring
    rw [ha, hbd, Int.lor_bit, ih a b.div2 hb2]
    simp only [Int.bit_val]
    cases hb' : b.bodd <;> simp <;> ring

theorem int_lor_mul_pow' (k : Nat) (a b : Int) (hb0 : 0 ≤ b) (hb : b < 2 ^ k) :
    Int.lor (a * 2 ^ k) b = a * 2 ^ k + b := by
  obtain ⟨n, rfl⟩ := Int.eq_ofNat_of_zero_le hb0
  have hn : n < 2 ^ k := by exact_mod_cast hb
  exact int_lor_mul_pow k a n hn

theorem int_land_max_sequence (s : Int) (hs : 0 ≤ s) :
    Int.land s max_sequence = s % 4096 := by
  have hms : max_sequence = 4095 := by decide
  rw [hms]
  obtain ⟨n, rfl⟩ := Int.eq_ofNat_of_zero_le hs
  have h2 : n &&& 4095 = n % 4096 := by
    have h45 : (4095 : ℕ) = 2 ^ 12 - 1 := by norm_num
    rw [h45, Nat.and_pow_two_sub_one_eq_mod]
  calc Int.land (↑n) (4095 : ℤ) = Int.ofNat (n &&& 4095) := rfl
    _ = ((n % 4096 : ℕ) : ℤ) := by rw [h2]; rfl
    _ = (↑n) % 4096 := by push_cast; rfl

theorem snowflake_id_eq (g : Snowflake) (ts seq : Int)
    (hd0 : 0 ≤ g.datacenter_id) (hd : g.datacenter_id ≤ 31)
    (hw0 : 0 ≤ g.worker_id) (hw : g.worker_id ≤ 31)
    (hs0 : 0 ≤ seq) (hs : seq ≤ 4095) :
    snowflake_id g ts seq =
      (ts - g.twepoch) * 4194304 + g.datacenter_id * 131072 +
        g.worker_id * 4096 + seq := by
  unfold snowflake_id
  have h22 : timestamp_shift = ((22 : ℕ) : ℤ) := by decide
  have h17 : datacenter_id_shift = ((17 : ℕ) : ℤ) := by decide
  have h12 : worker_id_shift = ((12 : ℕ) : ℤ) := by decide
  rw [h22, h17, h12, Int.shiftLeft_eq_mul_pow, Int.shiftLeft_eq_mul_pow,
    Int.shiftLeft_eq_mul_pow]
  have e22 : ((2 ^ 22 : ℕ) : ℤ) = 4194304 := by norm_num
  have e17 : ((2 ^ 17 : ℕ) : ℤ) = 131072 := by norm_num
  have e12 : ((2 ^ 12 : ℕ) : ℤ) = 4096 := by norm_num
  rw [e22, e17, e12]
  have l1 : Int.lor ((ts - g.twepoch) * 4194304) (g.datacenter_id * 131072) =
      (ts - g.twepoch) * 4194304 + g.datacenter_id * 131072 := by
    have h := int_lor_mul_pow' 22 (ts - g.twepoch) (g.datacenter_id * 131072)
      (by omega) (by norm_num; omega)
    norm_num at h
    exact h
  rw [l1]
  have l2 : Int.lor ((ts - g.twepoch) * 4194304 + g.datacenter_id * 131072)
      (g.worker_id * 4096) =
      (ts - g.twepoch) * 4194304 + g.datacenter_id * 131072 + g.worker_id * 4096 := by
    have hre : (ts - g.twepoch) * 4194304 + g.datacenter_id * 131072 =
        ((ts - g.twepoch) * 32 + g.datacenter_id) * 131072 := by ring
    rw [hre]
    have h := int_lor_mul_pow' 17 ((ts - g.twepoch) * 32 + g.datacenter_id)
      (g.worker_id * 4096) (by omega) (by norm_num; omega)
    norm_num at h
    rw [h]
  rw [l2]
  have l3 : Int.lor ((ts - g.twepoch) * 4194304 + g.datacenter_id * 131072 +
      g.worker_id * 4096) seq =
      (ts - g.twepoch) * 4194304 + g.datacenter_id * 131072 +
        g.worker_id * 4096 + seq := by
    have hre : (ts - g.twepoch) * 4194304 + g.datacenter_id * 131072 +
        g.worker_id * 4096 =
        ((ts - g.twepoch) * 1024 + g.datacenter_id * 32 + g.worker_id) * 4096 := by
      ring
    rw [hre]
    have h := int_lor_mul_pow' 12 ((ts - g.twepoch) * 1024 + g.datacenter_id * 32 +
      g.worker_id) seq (by omega) (by norm_num; omega)
    norm_num at h
    rw [h]
  rw [l3]

theorem next_millis_gt (clock : Nat → Int) :
    ∀ (fuel cur : Nat) (last ts : Int) (cur' : Nat),
      next_millis clock fuel cur last = some (ts, cur') → last < ts := by
  intro fuel
  induction fuel with
  | zero => intro cur last ts cur' h; cases h
  | succ f ih =>
    intro cur last ts cur' h
    simp only [next_millis, get_timestamp] at h
    split at h
    · exact ih _ _ _ _ h
    · rename_i hgt
      cases h
      omega

theorem next_millis_some (clock : Nat → Int) (j : Nat) (last : Int)
    (hj : last < clock j) :
    ∀ (fuel cur : Nat), j < cur + fuel → cur ≤ j →
      ∃ ts cur', next_millis clock fuel cur last = some (ts, cur') := by
  intro fuel
  induction fuel with
  | zero => intro cur h1 h2; omega
  | succ f ih =>
    intro cur h1 h2
    simp only [next_millis, get_timestamp]
    split
    · rename_i hle
      have hcur : cur ≠ j := by
        intro hc
        subst hc
        omega
      exact ih (cur + 1) (by omega) (by omega)
    · exact ⟨clock cur, cur + 1, rfl⟩

theorem next_id_ok_spec (fuel : Nat) (clock : Nat → Int) (cur : Nat)
    (g : Snowflake) (id : Int) (g' : Snowflake) (cur' : Nat)
    (hwf : snowflake_wf g)
    (h : next_id fuel clock cur g = some (.ok (id, g', cur'))) :
    snowflake_wf g' ∧ g'.worker_id = g.worker_id ∧
    g'.datacenter_id = g.datacenter_id ∧ g'.twepoch = g.twepoch ∧
    id = (g'.last_timestamp - g.twepoch) * 4194304 + g.datacenter_id * 131072 +
      g.worker_id * 4096 + g'.sequence ∧
    g.last_timestamp ≤ g'.last_timestamp ∧
    (g'.last_timestamp = g.last_timestamp → g'.sequence = g.sequence + 1) := by
  obtain ⟨hs0, hs1, hd0, hd1, hw0, hw1⟩ := hwf
  simp only [next_id, get_timestamp] at h
  split at h
  · cases h
  · split at h
    · rename_i hlt heq
      have hseq : Int.land (g.sequence + 1) max_sequence = (g.sequence + 1) % 4096 :=
        int_land_max_sequence (g.sequence + 1) (by omega)
      split at h
      · rename_i hzero
        match hm : next_millis clock fuel (cur + 1) g.last_timestamp with
        | none => rw [hm] at h; cases h
        | some (ts, c2) =>
          rw [hm] at h
          have hts := next_millis_gt clock fuel (cur + 1) g.last_timestamp ts c2 hm
          cases h
          rw [hzero]
          refine ⟨⟨by dsimp only; omega, by dsimp only; omega, hd0, hd1, hw0, hw1⟩,
            rfl, rfl, rfl, ?_, by dsimp only; omega,
            by intro hc; dsimp only at hc ⊢; omega⟩
          exact snowflake_id_eq g ts 0 hd0 hd1 hw0 hw1 (by omega) (by omega)
      · rename_i hnz
        rw [hseq] at hnz
        have hb : (g.sequence + 1) % 4096 = g.sequence + 1 := by omega
        have hsb : g.sequence + 1 ≤ 4095 := by
          by_contra hgt
          have h46 : g.sequence = 4095 := by omega
          rw [h46] at hb
          omega
        cases h
        rw [hseq, hb]
        refine ⟨⟨by dsimp only; omega, hsb, hd0, hd1, hw0, hw1⟩, rfl, rfl, rfl, ?_,
          by dsimp only; omega, by intro hc; rfl⟩
        exact snowflake_id_eq g (clock cur) (g.sequence + 1) hd0 hd1 hw0 hw1
          (by omega) hsb
    · rename_i hlt hne
      cases h
      refine ⟨⟨by dsimp only; omega, by dsimp only; omega, hd0, hd1, hw0, hw1⟩,
        rfl, rfl, rfl, ?_, by dsimp only; omega,
        by intro hc; dsimp only at hc ⊢; omega⟩
      exact snowflake_id_eq g (clock cur) 0 hd0 hd1 hw0 hw1 (by omega) (by omega)

theorem next_millis_frozen_none : ∀ (fuel cur : Nat),
    next_millis frozen_clock fuel cur 7 = none := by
  intro fuel
  induction fuel with
  | zero => intro cur; rfl
  | succ f ih =>
    intro cur
    simp [next_millis, get_timestamp, frozen_clock, ih]

theorem frozen_step (cur : Nat) (k : Int) (h0 : 0 ≤ k) (h1 : k ≤ 4094) :
    next_id 0 frozen_clock cur ⟨0, 0, k, 7, 0⟩ =
      some (.ok (snowflake_id ⟨0, 0, k, 7, 0⟩ 7 (k + 1), ⟨0, 0, k + 1, 7, 0⟩, cur + 1)) := by
  have hseq : Int.land (k + 1) max_sequence = k + 1 := by
    rw [int_land_max_sequence (k + 1) (by omega)]
    omega
  have hne : ¬(k + 1 = 0) := by omega
  simp [next_id, get_timestamp, frozen_clock, hseq, hne]

theorem next_id_iter_succ (n fuel : Nat) (clock : Nat → Int) :
    ∀ (cur : Nat) (g : Snowflake),
      next_id_iter (n + 1) fuel clock cur g =
        match next_id_iter n fuel clock cur g with
        | some (g', cur') =>
          match next_id fuel clock cur' g' with
          | some (.ok (_, g'', cur'')) => some (g'', cur'')
          | _ => none
        | none => none := by
  induction n with
  | zero =>
    intro cur g
    show next_id_iter 1 fuel clock cur g = _
    simp only [next_id_iter]
  | succ n ih =>
    intro cur g
    show next_id_iter (n + 1 + 1) fuel clock cur g = _
    conv_lhs => rw [next_id_iter]
    conv_rhs => rw [next_id_iter]
    match h : next_id fuel clock cur g with
    | some (.ok (id, g', cur')) => exact ih cur' g'
    | some (.error e) => rfl
    | none => rfl

theorem frozen_reach : ∀ (n : Nat), n ≤ 4095 →
    next_id_iter (n + 1) 0 frozen_clock 0 ⟨0, 0, 0, -1, 0⟩ =
      some (⟨0, 0, (n : Int), 7, 0⟩, n + 1) := by
  intro n
  induction n with
  | zero => intro h; decide
  | succ n ih =>
    intro h
    rw [next_id_iter_succ, ih (by omega)]
    dsimp only
    rw [frozen_step (n + 1) (n : Int) (by omega) (by exact_mod_cast Nat.le_of_succ_le_succ h)]
    dsimp only
    push_cast
    rfl

theorem cache_pop_length_le {K V : Type} [DecidableEq K]
    (c : List (K × V × Int)) (k : K) : (cache_pop c k).length ≤ c.length :=
  List.length_eraseP_le c

theorem contains_cache_bound {K V : Type} [DecidableEq K] (now : Int) (k : K)
    (c : LRUCache K V) :
    (LRUCache.contains now k c).2.maxsize = c.maxsize ∧
    (LRUCache.contains now k c).2.ttl = c.ttl ∧
    (LRUCache.contains now k c).2.cache.length ≤ c.cache.length := by
  unfold LRUCache.contains
  match h : cache_find c.cache k with
  | none => simp
  | some (v, timestamp) =>
    simp only
    split
    · split
      · exact ⟨rfl, rfl, cache_pop_length_le c.cache k⟩
      · simp
    · simp

theorem find_some_length_pos {K V : Type} [DecidableEq K]
    {c : List (K × V × Int)} {k : K} {v : V} {ts : Int}
    (h : cache_find c k = some (v, ts)) :
    (cache_pop c k).length + 1 = c.length := by
  unfold cache_find at h
  match hf : c.find? (fun e => decide (e.1 = k)) with
  | none => rw [hf] at h; cases h
  | some e =>
    have hmem : e ∈ c := List.mem_of_find?_eq_some hf
    have hpred := List.find?_some hf
    have hpos : 0 < c.length := List.length_pos_of_mem hmem
    have := List.length_eraseP_of_mem (p := fun e => decide (e.1 = k)) hmem hpred
    unfold cache_pop
    omega

theorem applyCacheOp_preserves {K V : Type} [DecidableEq K]
    (c : LRUCache K V) (op : CacheOp K V)
    (hmax : 1 ≤ c.maxsize) (hlen : (c.cache.length : Int) ≤ c.maxsize) :
    ∃ c', applyCacheOp c op = .ok c' ∧ c'.maxsize = c.maxsize ∧ c'.ttl = c.ttl ∧
      (c'.cache.length : Int) ≤ c.maxsize := by
  cases op with
  | set now k v =>
    simp only [applyCacheOp, LRUCache.set]
    have h1 : (if cache_has_key c.cache k then cache_pop c.cache k else c.cache).length ≤
        c.cache.length := by
      split
      · exact cache_pop_length_le c.cache k
      · exact le_refl _
    generalize hg : (if cache_has_key c.cache k then cache_pop c.cache k else c.cache) = c1 at h1 ⊢
    split
    · rename_i hfull
      match hc : c1 with
      | [] =>
        exfalso
        simp only [List.length_nil, Nat.cast_zero] at hfull
        omega
      | e :: rest =>
        refine ⟨_, rfl, rfl, rfl, ?_⟩
        simp only [List.length_cons] at h1
        simp only [List.length_append, List.length_cons, List.length_nil]
        push_cast
        omega
    · rename_i hlt
      refine ⟨_, rfl, rfl, rfl, ?_⟩
      simp only [List.length_append, List.length_cons, List.length_nil]
      push_cast
      omega
  | get now k =>
    simp only [applyCacheOp, LRUCache.get]
    obtain ⟨hm, ht, hl⟩ := contains_cache_bound now k c
    split
    · refine ⟨_, rfl, hm, ht, ?_⟩
      show ((LRUCache.contains now k c).2.cache.length : Int) ≤ c.maxsize
      omega
    · match hf : cache_find (LRUCache.contains now k c).2.cache k with
      | none =>
        refine ⟨_, rfl, hm, ht, ?_⟩
        show ((LRUCache.contains now k c).2.cache.length : Int) ≤ c.maxsize
        omega
      | some (v, ts) =>
        refine ⟨_, rfl, hm, ht, ?_⟩
        show ((cache_pop (LRUCache.contains now k c).2.cache k ++
          [(k, v, now)]).length : Int) ≤ c.maxsize
        have := find_some_length_pos hf
        simp only [List.length_append, List.length_cons, List.length_nil]
        omega
  | remove k =>
    simp only [applyCacheOp]
    unfold LRUCache.remove
    split
    · exact ⟨_, rfl, rfl, rfl, by
        have := cache_pop_length_le c.cache k
        simp only
        omega⟩
    · exact ⟨_, rfl, rfl, rfl, hlen⟩
  | clear =>
    simp only [applyCacheOp, LRUCache.clear]
    exact ⟨_, rfl, rfl, rfl, by simp; omega⟩
  | prune now =>
    simp only [applyCacheOp]
    unfold LRUCache.prune
    split
    · exact ⟨_, rfl, rfl, rfl, hlen⟩
    · refine ⟨_, rfl, rfl, rfl, ?_⟩
      have := List.length_filter_le (fun e => !decide (c.ttl < now - e.2.2)) c.cache
      simp only
      omega
  | contains now k =>
    simp only [applyCacheOp]
    obtain ⟨hm, ht, hl⟩ := contains_cache_bound now k c
    exact ⟨_, rfl, hm, ht, by omega⟩

theorem runCacheOps_preserves {K V : Type} [DecidableEq K]
    (ops : List (CacheOp K V)) :
    ∀ (c : LRUCache K V), 1 ≤ c.maxsize → (c.cache.length : Int) ≤ c.maxsize →
      ∃ c', runCacheOps c ops = .ok c' ∧ c'.maxsize = c.maxsize ∧
        (c'.cache.length : Int) ≤ c.maxsize := by
  induction ops with
  | nil => intro c hmax hlen; exact ⟨c, rfl, rfl, hlen⟩
  | cons op rest ih =>
    intro c hmax hlen
    obtain ⟨c₁, h₁, hm₁, ht₁, hl₁⟩ := applyCacheOp_preserves c op hmax hlen
    obtain ⟨c₂, h₂, hm₂, hl₂⟩ := ih c₁ (hm₁ ▸ hmax) (hm₁ ▸ hl₁)
    exact ⟨c₂, by simp only [runCacheOps, h₁, h₂], by rw [hm₂, hm₁], by rw [hm₁] at hl₂; exact hl₂⟩

/-! ### Claim theorems -/

/-- C1: for startup events, the default priority of every component type equals
100 minus its shutdown priority, and consequently, for distinct component
types, running earlier at a startup event (higher default startup priority)
is equivalent to running later at shutdown events (lower shutdown priority).
Listeners run in decreasing priority order at both kinds of event. -/
theorem C1_startup_priority_reverses_shutdown
    (e : LifecycleEventType) (he : e ∈ startup_priority_events)
    (c₁ c₂ : ComponentType) (hne : c₁ ≠ c₂) :
    default_priority e c₁ = 100 - component_shutdown_priority c₁ ∧
    (default_priority e c₁ > default_priority e c₂ ↔
      component_shutdown_priority c₁ < component_shutdown_priority c₂) := by
  revert he hne
  revert e c₁ c₂
  decide

/-- Witness for C1 at the event `pre_startup` and the pair (api, database). -/
theorem C1_startup_priority_reverses_shutdown_witness :
    LifecycleEventType.pre_startup ∈ startup_priority_events ∧
    ComponentType.api ≠ ComponentType.database ∧
    (default_priority .pre_startup .api = 100 - component_shutdown_priority .api ∧
      (default_priority .pre_startup .api > default_priority .pre_startup .database ↔
        component_shutdown_priority .api < component_shutdown_priority .database)) :=
  ⟨by decide, by decide,
    C1_startup_priority_reverses_shutdown .pre_startup (by decide) .api .database (by decide)⟩

/-- C4: inside `trigger_event`, the first listener that raises stops the loop
and re-raises when the event is one of the four startup events; for every
other event type the error is logged, the remaining listeners still run, and
the call returns normally. -/
theorem C4_trigger_event_error_handling
    (e : LifecycleEventType) (pre post : List LifecycleEventListener)
    (bad : LifecycleEventListener) (exc : Nat)
    (hpre : ∀ x ∈ pre, x.outcome = .ok ()) (hbad : bad.outcome = .error exc) :
    (e ∈ startup_raise_events →
      trigger_event e (pre ++ bad :: post) =
        (.error exc, pre.map (fun x => x.name) ++ [bad.name])) ∧
    (e ∉ startup_raise_events →
      trigger_event e (pre ++ bad :: post) =
        (.ok (), (pre ++ bad :: post).map (fun x => x.name))) := by
  constructor
  · intro he
    unfold trigger_event
    rw [trigger_event_go_append_ok e pre hpre]
    simp [trigger_event_go, hbad, if_pos he]
  · intro he
    unfold trigger_event
    rw [trigger_event_go_no_raise e he]
    simp

/-- Witness for C4: a raising listener ['b'] after a successful ['a'] aborts the
startup event `pre_startup` (listener ['c'] never runs), while on the shutdown
event `pre_shutdown` all three listeners run and the call returns normally. -/
theorem C4_trigger_event_error_handling_witness :
    trigger_event .pre_startup
        [⟨['a'], .other, 0, .ok ()⟩, ⟨['b'], .other, 0, .error 3⟩, ⟨['c'], .other, 0, .ok ()⟩] =
      (.error 3, [['a'], ['b']]) ∧
    trigger_event .pre_shutdown
        [⟨['a'], .other, 0, .ok ()⟩, ⟨['b'], .other, 0, .error 3⟩, ⟨['c'], .other, 0, .ok ()⟩] =
      (.ok (), [['a'], ['b'], ['c']]) := by
  constructor
  · exact (C4_trigger_event_error_handling .pre_startup
      [⟨['a'], .other, 0, .ok ()⟩] [⟨['c'], .other, 0, .ok ()⟩]
      ⟨['b'], .other, 0, .error 3⟩ 3 (by decide) (by decide)).1 (by decide)
  · exact (C4_trigger_event_error_handling .pre_shutdown
      [⟨['a'], .other, 0, .ok ()⟩] [⟨['c'], .other, 0, .ok ()⟩]
      ⟨['b'], .other, 0, .error 3⟩ 3 (by decide) (by decide)).2 (by decide)

/-- C6: `_sort_listeners` applies one and the same ordering rule to every
event type — non-increasing priority with ties broken by ascending listener
name — keeping exactly the registered listeners; `register_event_listener`
re-sorts the registry entry it touches; and `trigger_event` walks the sorted
list in order (shown on runs where no listener raises). -/
theorem C6_trigger_event_priority_order (e : LifecycleEventType)
    (l : List LifecycleEventListener) :
    (∀ e', sort_listeners e' l = sort_listeners e l) ∧
    (sort_listeners e l).Pairwise listener_order ∧
    List.Perm (sort_listeners e l) l ∧
    (∀ (registry : LifecycleEventType → List LifecycleEventListener)
        (nm : List Char) (ct : Option ComponentType) (pr : Option Int)
        (out : Except Nat Unit),
      (register_event_listener e nm ct pr out registry e).Pairwise listener_order ∧
      List.Perm (register_event_listener e nm ct pr out registry e)
        (registry e ++
          [⟨nm, ct.getD .other, pr.getD (default_priority e (ct.getD .other)), out⟩])) ∧
    ((∀ x ∈ l, x.outcome = .ok ()) →
      (trigger_event e (sort_listeners e l)).2 =
        (sort_listeners e l).map (fun x => x.name)) := by
  refine ⟨?_, sort_listeners_pairwise e l, sort_listeners_perm e l, ?_, ?_⟩
  · intro e'
    rw [sort_listeners_eq, sort_listeners_eq]
  · intro registry nm ct pr out
    have hreg : register_event_listener e nm ct pr out registry e =
        sort_listeners e (registry e ++
          [⟨nm, ct.getD .other, pr.getD (default_priority e (ct.getD .other)), out⟩]) := by
      simp [register_event_listener]
    rw [hreg]
    exact ⟨sort_listeners_pairwise e _, sort_listeners_perm e _⟩
  · intro hok
    have h : ∀ x ∈ sort_listeners e l, x.outcome = .ok () := by
      intro x hx
      exact hok x ((sort_listeners_perm e l).mem_iff.mp hx)
    rw [trigger_event, trigger_event_go_all_ok e _ h]
    simp

-- Witness for C6 at `pre_shutdown` with two same-priority listeners given
-- out of name order and one higher-priority listener: sorting puts priority 9
-- first and orders the tie by name, and an error-free trigger run invokes
-- them in exactly that order.
unseal List.merge List.mergeSort in
theorem C6_trigger_event_priority_order_witness :
    (trigger_event .pre_shutdown (sort_listeners .pre_shutdown
        [⟨['b'], .other, 5, .ok ()⟩, ⟨['a'], .other, 5, .ok ()⟩, ⟨['c'], .api, 9, .ok ()⟩])).2 =
      (sort_listeners .pre_shutdown
        [⟨['b'], .other, 5, .ok ()⟩, ⟨['a'], .other, 5, .ok ()⟩, ⟨['c'], .api, 9, .ok ()⟩]).map
        (fun x => x.name) ∧
    (sort_listeners .pre_shutdown
        [⟨['b'], .other, 5, .ok ()⟩, ⟨['a'], .other, 5, .ok ()⟩, ⟨['c'], .api, 9, .ok ()⟩]).map
        (fun x => x.name) = [['c'], ['a'], ['b']] := by
  constructor
  · exact (C6_trigger_event_priority_order .pre_shutdown
      [⟨['b'], .other, 5, .ok ()⟩, ⟨['a'], .other, 5, .ok ()⟩, ⟨['c'], .api, 9, .ok ()⟩]).2.2.2.2
      (by decide)
  · decide

/-- C9: starting from an empty `LRUCache` with `maxsize ≥ 1`, every sequence
of public operations succeeds (the eviction `popitem` never sees an empty
dict) and leaves at most `maxsize` entries: `set` first pops an existing
entry for the key, then evicts the oldest entry while the cache is full, and
every other operation only removes entries, so `len(cache) <= maxsize` is an
invariant of all of `set`, `get`, `remove`, `clear`, `prune` and
`__contains__`. -/
theorem C9_lru_cache_length_bounded {K V : Type} [DecidableEq K]
    (maxsize ttl : Int) (h : 1 ≤ maxsize) (ops : List (CacheOp K V)) :
    ∃ c', runCacheOps (mkLRUCache K V maxsize ttl) ops = .ok c' ∧
      (c'.cache.length : Int) ≤ maxsize := by
  obtain ⟨c', h1, _, h3⟩ :=
    runCacheOps_preserves ops (mkLRUCache K V maxsize ttl) h (by simp [mkLRUCache]; omega)
  exact ⟨c', h1, h3⟩

-- Witness for C9: a cache of capacity 2 stays within bound across four
-- inserts (forcing evictions), a hit, a miss, a membership test, a prune and
-- a remove.
theorem C9_lru_cache_length_bounded_witness :
    ∃ c' : LRUCache Nat Nat,
      runCacheOps (mkLRUCache Nat Nat 2 0)
        [.set 0 1 10, .set 1 2 20, .set 2 3 30, .set 3 2 21, .get 4 2,
         .contains 5 1, .prune 6, .remove 3, .get 7 9] = .ok c' ∧
      (c'.cache.length : Int) ≤ 2 :=
  C9_lru_cache_length_bounded 2 0 (by decide) _

/-- C3 (code bug): `_execute_phase` passes hard-coded timeouts — 10 s to
`_stop_api_server`, 10 s to `_stop_services` and 5 s to `_cleanup_resources`
— and never reads `self._phase_timeouts`, so for each of the three shutdown
phases the applied timeout differs from the stored configuration (defaults
30/20/10 s); `configure(phase_timeouts=...)` does merge supplied entries into
the stored dictionary, but that store has no effect on execution. -/
theorem C3_phase_timeouts_never_applied :
    (default_shutdown_config.phase_timeouts .api_stopping = some 30 ∧
      default_shutdown_config.phase_timeouts .services_stopping = some 20 ∧
      default_shutdown_config.phase_timeouts .cleanup = some 10) ∧
    (execute_phase_timeout_arg .api_stopping = some 10 ∧
      execute_phase_timeout_arg .services_stopping = some 10 ∧
      execute_phase_timeout_arg .cleanup = some 5) ∧
    (execute_phase_timeout_arg .api_stopping ≠
        default_shutdown_config.phase_timeouts .api_stopping ∧
      execute_phase_timeout_arg .services_stopping ≠
        default_shutdown_config.phase_timeouts .services_stopping ∧
      execute_phase_timeout_arg .cleanup ≠
        default_shutdown_config.phase_timeouts .cleanup) ∧
    (∀ (pts : ShutdownPhase → Option Int) (p : ShutdownPhase),
      (configure default_shutdown_config none none none none none
          (some pts)).phase_timeouts p =
        match pts p with
        | some v => some v
        | none => default_shutdown_config.phase_timeouts p) := by
  refine ⟨by decide, by decide, by decide, ?_⟩
  intro pts p
  rfl

/-- C5: a shutdown run assigns `_phase` in strictly forward order (with
`completed`, `failed` and `cancelled` as terminal states), never assigns
`not_started`, starts at `starting`, and terminates in `failed` exactly when
some phase raised a non-cancellation exception, in `cancelled` exactly when
some phase was cancelled, and in `completed` exactly when every phase
returned normally. -/
theorem C5_shutdown_phase_monotone (env : ShutdownPhase → StepOutcome) :
    List.Chain' (fun a b => phase_order a < phase_order b)
      (graceful_shutdown false env).1 ∧
    ShutdownPhase.not_started ∉ (graceful_shutdown false env).1 ∧
    (graceful_shutdown false env).1.head? = some .starting ∧
    ((graceful_shutdown false env).1.getLast? = some .failed ↔
      ∃ code, (exec_phases env shutdown_phases_list).2 = some (.exc code)) ∧
    ((graceful_shutdown false env).1.getLast? = some .cancelled ↔
      (exec_phases env shutdown_phases_list).2 = some .cancelled) ∧
    ((graceful_shutdown false env).1.getLast? = some .completed ↔
      (exec_phases env shutdown_phases_list).2 = none) := by
  cases h1 : env .api_stopping <;> cases h2 : env .services_stopping <;>
    cases h3 : env .cleanup <;>
      simp_all [graceful_shutdown, exec_phases, shutdown_phases_list, phase_order]

/-- C7: `_stop_api_server` returns normally whatever the HTTP server stop
does (every `except` arm falls through), so a shutdown run in which the HTTP
stop times out, raises, or is itself cancelled still executes the
`services_stopping` and `cleanup` phases, ends in `completed`, and sets the
`_shutdown_complete` event that `wait_for_shutdown` waits on. -/
theorem C7_http_stop_failure_does_not_abort_shutdown :
    (∀ (has_http : Bool) (out : HttpStopOutcome), stop_api_server has_http out = .ok) ∧
    (∀ out : HttpStopOutcome,
      graceful_shutdown false (env_with_http out .ok .ok) =
        ([.starting, .api_stopping, .services_stopping, .cleanup, .completed], true)) := by
  constructor
  · intro has_http out
    cases has_http <;> cases out <;> rfl
  · intro out
    have h : stop_api_server true out = .ok := by
      cases out <;> rfl
    simp [graceful_shutdown, exec_phases, shutdown_phases_list, env_with_http, h]

/-- C2 counterexample: in a fully successful first run of `APIService.start`
the step trace is `successful_start_trace`, which contains no component
discovery at all — `_discover_components` is never called — and which engages
the shutdown manager (signal-handler registration) before the HTTP server
start, not last. -/
theorem C2_no_discovery_in_start_counterexample :
    api_service_start false all_ok_start_env =
      (successful_start_trace, true, .ok ()) ∧
    StartStep.discover_components ∉ successful_start_trace ∧
    successful_start_trace =
      [.create_injector, .get_settings, .register_views, .trigger .pre_startup,
       .configure_http_server, .register_signal_handlers, .trigger .pre_http_start,
       .http_server_start, .trigger .post_http_start, .trigger .post_startup] := by
  decide

/-- C2 (amended): every successful first run of `APIService.start` engages, in
order: the injector manager (`create_injector`), the config manager
(`get_settings` during app creation), view registration, the lifecycle
manager (`PRE_STARTUP`), the HTTP server manager (configuration), the
shutdown manager (`register_signal_handlers`), then `PRE_HTTP_START`, the
HTTP server start, `POST_HTTP_START` and `POST_STARTUP`; the discovery
manager is never engaged. -/
theorem C2_start_engagement_order (env : StartEnv)
    (h1 : env.pre_startup_outcome = .ok ())
    (h2 : env.pre_http_start_outcome = .ok ())
    (h3 : env.http_start_outcome = .ok ())
    (h4 : env.post_http_start_outcome = .ok ())
    (h5 : env.post_startup_outcome = .ok ()) :
    api_service_start false env = (successful_start_trace, true, .ok ()) ∧
    StartStep.discover_components ∉ successful_start_trace := by
  obtain ⟨o1, o2, o3, o4, o5⟩ := env
  cases h1; cases h2; cases h3; cases h4; cases h5
  exact ⟨by rfl, by decide⟩

/-- Witness for C2 (amended) at the all-successful environment. -/
theorem C2_start_engagement_order_witness :
    api_service_start false all_ok_start_env =
      (successful_start_trace, true, .ok ()) ∧
    StartStep.discover_components ∉ successful_start_trace :=
  C2_start_engagement_order all_ok_start_env rfl rfl rfl rfl rfl

/-- C10: on a started, not-yet-stopping service, `stop` always ends with
`_started = _stopping = False`, whatever the shutdown-manager flow or the
direct HTTP-server stop do (the `finally` block resets both flags); on a
service that is not started, or already stopping, `stop` returns immediately,
changing nothing and performing no action. -/
theorem C10_stop_always_resets_flags :
    (∀ (has_injector : Bool) (env : StopEnv),
      (api_service_stop true false has_injector env).1 = (false, false)) ∧
    (∀ (stopping : Bool) (has_injector : Bool) (env : StopEnv),
      api_service_stop false stopping has_injector env = ((false, stopping), [])) ∧
    (∀ (has_injector : Bool) (env : StopEnv),
      api_service_stop true true has_injector env = ((true, true), [])) := by
  refine ⟨?_, ?_, ?_⟩ <;> intros <;> simp [api_service_stop]

/-- C8 counterexample: under the clock frozen at 7 ms — which is
non-decreasing — a generator built by `__init__` with the default arguments
completes 4096 `next_id` calls (filling the whole per-millisecond sequence
space) and the 4097th call never returns: `_next_millis` spins forever, i.e.
no polling budget makes it finish. -/
theorem C8_frozen_clock_counterexample :
    (∀ i j : Nat, i ≤ j → frozen_clock i ≤ frozen_clock j) ∧
    mkSnowflake 0 0 0 0 = .ok ⟨0, 0, 0, -1, 0⟩ ∧
    next_id_iter 4096 0 frozen_clock 0 ⟨0, 0, 0, -1, 0⟩ =
      some (⟨0, 0, 4095, 7, 0⟩, 4096) ∧
    (∀ fuel : Nat, next_id fuel frozen_clock 4096 ⟨0, 0, 4095, 7, 0⟩ = none) := by
  refine ⟨fun i j _ => le_refl 7, by decide, ?_, ?_⟩
  · have h := frozen_reach 4095 (le_refl 4095)
    norm_num at h
    exact h
  · intro fuel
    have hseq : Int.land (4096 : ℤ) max_sequence = 0 := by decide
    simp [next_id, get_timestamp, frozen_clock, hseq, next_millis_frozen_none]

/-- C8 (amended): for a `SnowflakeGenerator`, (1) when the clock readings are
non-decreasing and unbounded — i.e. the clock eventually advances past any
value — every `next_id` call finishes within some polling budget (returning
an id or raising); (2) whenever two consecutive calls on one generator both
return ids, the second id is strictly greater than the first (so all ids of
one well-formed generator are pairwise distinct), for any clock; and (3) a
clock reading strictly behind the stored `last_timestamp` makes `next_id`
raise `RuntimeError` instead of returning an id. -/
theorem C8_snowflake_monotone_ids :
    (∀ (clock : Nat → Int), (∀ i j : Nat, i ≤ j → clock i ≤ clock j) →
      (∀ B : Int, ∃ j : Nat, B < clock j) →
      ∀ (cur : Nat) (g : Snowflake),
        ∃ (fuel : Nat) (r : Except Unit (Int × Snowflake × Nat)),
          next_id fuel clock cur g = some r) ∧
    (∀ (clock : Nat → Int) (f₁ f₂ cur : Nat) (g : Snowflake) (id₁ : Int)
        (g₁ : Snowflake) (cur₁ : Nat) (id₂ : Int) (g₂ : Snowflake) (cur₂ : Nat),
      snowflake_wf g →
      next_id f₁ clock cur g = some (.ok (id₁, g₁, cur₁)) →
      next_id f₂ clock cur₁ g₁ = some (.ok (id₂, g₂, cur₂)) →
      id₁ < id₂) ∧
    (∀ (fuel : Nat) (clock : Nat → Int) (cur : Nat) (g : Snowflake),
      clock cur < g.last_timestamp →
      next_id fuel clock cur g = some (.error ())) := by
  refine ⟨?_, ?_, ?_⟩
  · intro clock hmono hunb cur g
    obtain ⟨j, hj⟩ := hunb g.last_timestamp
    have hj' : g.last_timestamp < clock (max j (cur + 1)) :=
      lt_of_lt_of_le hj (hmono j (max j (cur + 1)) (le_max_left j (cur + 1)))
    obtain ⟨ts, c2, hnm⟩ := next_millis_some clock (max j (cur + 1))
      g.last_timestamp hj' (max j (cur + 1)) (cur + 1)
      (by omega) (le_max_right j (cur + 1))
    refine ⟨max j (cur + 1), ?_⟩
    simp only [next_id, get_timestamp]
    split
    · exact ⟨.error (), rfl⟩
    · split
      · split
        · rw [hnm]
          exact ⟨_, rfl⟩
        · exact ⟨_, rfl⟩
      · exact ⟨_, rfl⟩
  · intro clock f₁ f₂ cur g id₁ g₁ cur₁ id₂ g₂ cur₂ hwf h₁ h₂
    obtain ⟨hwf₁, hw₁, hd₁, ht₁, hid₁, hle₁, hstep₁⟩ :=
      next_id_ok_spec f₁ clock cur g id₁ g₁ cur₁ hwf h₁
    obtain ⟨hwf₂, hw₂, hd₂, ht₂, hid₂, hle₂, hstep₂⟩ :=
      next_id_ok_spec f₂ clock cur₁ g₁ id₂ g₂ cur₂ hwf₁ h₂
    obtain ⟨hs₁0, hs₁1, hd₁0, hd₁1, hw₁0, hw₁1⟩ := hwf₁
    obtain ⟨hs₂0, hs₂1, hd₂0, hd₂1, hw₂0, hw₂1⟩ := hwf₂
    rw [ht₁] at hid₂
    rw [hw₁, hd₁] at hid₂
    rcases eq_or_lt_of_le hle₂ with heq | hlt
    · have hseq := hstep₂ heq.symm
      omega
    · omega
  · intro fuel clock cur g h
    simp [next_id, get_timestamp, h]

-- Witness for C8 (amended): part (1) at the strictly advancing clock; part
-- (2) on the two first calls of a fresh generator under that clock (ids 0
-- and 4194304); part (3) at a clock reading 5 ms behind the stored last
-- timestamp.
theorem C8_snowflake_monotone_ids_witness :
    (∃ (fuel : Nat) (r : Except Unit (Int × Snowflake × Nat)),
      next_id fuel count_clock 0 ⟨0, 0, 0, -1, 0⟩ = some r) ∧
    next_id 0 count_clock 0 ⟨0, 0, 0, -1, 0⟩ =
      some (.ok (0, ⟨0, 0, 0, 0, 0⟩, 1)) ∧
    next_id 0 count_clock 1 ⟨0, 0, 0, 0, 0⟩ =
      some (.ok (4194304, ⟨0, 0, 0, 1, 0⟩, 2)) ∧
    (0 : Int) < 4194304 ∧
    next_id 0 behind_clock 0 ⟨0, 0, 0, 3, 0⟩ = some (.error ()) := by
  refine ⟨?_, by decide, by decide, ?_, ?_⟩
  · exact C8_snowflake_monotone_ids.1 count_clock
      (fun i j h => by simp only [count_clock]; exact_mod_cast h)
      (fun B => ⟨B.toNat + 1, by simp only [count_clock]; omega⟩) 0 ⟨0, 0, 0, -1, 0⟩
  · exact C8_snowflake_monotone_ids.2.1 count_clock 0 0 0 ⟨0, 0, 0, -1, 0⟩ 0
      ⟨0, 0, 0, 0, 0⟩ 1 4194304 ⟨0, 0, 0, 1, 0⟩ 2
      (by exact ⟨by decide, by decide, by decide, by decide, by decide, by decide⟩)
      (by decide) (by decide)
  · exact C8_snowflake_monotone_ids.2.2 0 behind_clock 0 ⟨0, 0, 0, 3, 0⟩ (by decide)

end Fautil
